import Mathlib

/-!
Verification of the core of `abi_stable` (type-erased `DynTrait` handles,
prefix-type field accessibility, and the type-layout compatibility checker)
against its natural-language specification, via a shallow embedding of the
relevant Rust code in Lean.

Machine integers (`usize`) are modelled as `Nat`; pointers are modelled as
their numeric addresses.  Statically allocated vtables are modelled by a
"heap" function from addresses to the `TypeInfo` stored in the vtable at
that address.
-/

namespace AbiStable

/-! ## Pointer-tag constants (erased_types/dyn_trait.rs, lines 740-742)

`PTR_FLAGS: usize = 0b1111`, `PTR_MASK = !PTR_FLAGS`,
`PTR_FLAG_IS_BORROWED = 0b0001`.  Masking with `PTR_MASK` clears the low
four bits of the pointer; on unbounded naturals this is `16 * (v / 16)`.
-/

def PTR_FLAGS : Nat := 15

def PTR_FLAG_IS_BORROWED : Nat := 1

/-- `ptr & PTR_MASK`: the pointer with its low four tag bits cleared. -/
def maskPtr (v : Nat) : Nat := 16 * (v / 16)

/-- Modelled from the spec: `erased_types/type_info.rs` is not in the sources;
the spec describes the identity token as compared by "a content-based notion of
'compatible type' (same fully-qualified name + defining-module fingerprint)". -/
structure TypeInfo where
  name : String
  module_fingerprint : Nat
deriving DecidableEq

/-- Modelled from the spec: content-based compatibility of identity tokens —
same fully-qualified name and same defining-module fingerprint. -/
def TypeInfo.is_compatible (a b : TypeInfo) : Bool :=
  a.name == b.name && a.module_fingerprint == b.module_fingerprint

/-- The `Send`/`Sync` associated types of the `InterfaceType` parameter `I`
of a `DynTrait`, as two booleans (`True`/`False` type-level bools in Rust). -/
structure InterfaceFlags where
  send : Bool
  sync : Bool
deriving DecidableEq

/-- Shallow embedding of `DynTrait<'borr, P, I>`
(erased_types/dyn_trait.rs, lines 213-219): an erased object (payload of
model type `V`) plus the vtable pointer whose low bits are repurposed as
flags.  The interface parameter `I` is modelled by its `Send`/`Sync` flags. -/
structure DynTrait (V : Type) where
  object : V
  vtable : Nat
  iface : InterfaceFlags
deriving DecidableEq

namespace DynTrait

variable {V : Type}

/-- `vtable_address` (dyn_trait.rs line 362): `(self.vtable as usize) & PTR_MASK`. -/
def vtable_address (h : DynTrait V) : Nat := maskPtr h.vtable

/-- `vtable_ptr_flags` (dyn_trait.rs line 366): `(self.vtable as usize) & PTR_FLAGS`. -/
def vtable_ptr_flags (h : DynTrait V) : Nat := h.vtable &&& PTR_FLAGS

/-- The non-borrowing constructors `from_value`/`from_ptr`/`from_any_value`/
`from_any_ptr` (dyn_trait.rs lines 226-288): store the erased object and the
plain (untagged) address of the concrete type's static vtable. -/
def from_ptr (t_vtable_addr : Nat) (ifc : InterfaceFlags) (obj : V) : DynTrait V :=
  { object := obj, vtable := t_vtable_addr, iface := ifc }

/-- `from_value` (dyn_trait.rs lines 226-234) boxes the value and delegates to
`from_ptr` with `T::get_vtable()`. -/
def from_value (t_vtable_addr : Nat) (ifc : InterfaceFlags) (v : V) : DynTrait V :=
  from_ptr t_vtable_addr ifc v

end DynTrait

/-- `UneraseError` (dyn_trait.rs lines 1194-1200). -/
structure UneraseError where
  expected_vtable_address : Nat
  expected_type_info : TypeInfo
  found_vtable_address : Nat
  found_type_info : TypeInfo
deriving DecidableEq

namespace DynTrait

variable {V : Type}

/-- `check_same_destructor_opaque` (dyn_trait.rs lines 428-446).
`heap` maps a vtable address to the `TypeInfo` of the vtable stored there;
`t_vtable_addr` is `A::get_vtable() as *const _ as usize` for the target type. -/
def check_same_destructor_opaque (heap : Nat → TypeInfo) (h : DynTrait V)
    (t_vtable_addr : Nat) : Except UneraseError Unit :=
  if h.vtable_address == t_vtable_addr
      || (heap h.vtable_address).is_compatible (heap t_vtable_addr) then
    .ok ()
  else
    .error
      { expected_vtable_address := t_vtable_addr
        expected_type_info := heap t_vtable_addr
        found_vtable_address := h.vtable
        found_type_info := heap h.vtable_address }

/-- `into_unerased` (dyn_trait.rs lines 464-475): run the destructor-identity
check, then move the erased object out (`ptr::read` of the payload,
transmuted back to `T`). -/
def into_unerased (heap : Nat → TypeInfo) (h : DynTrait V)
    (t_vtable_addr : Nat) : Except UneraseError V :=
  match h.check_same_destructor_opaque heap t_vtable_addr with
  | .error e => .error e
  | .ok () => .ok h.object

/-- `is_same_type` (dyn_trait.rs lines 344-350). -/
def is_same_type (heap : Nat → TypeInfo) (a b : DynTrait V) : Bool :=
  a.vtable_address == b.vtable_address
    || (heap a.vtable_address).is_compatible (heap b.vtable_address)

/-- The `ReborrowBounds<SendNess, SyncNess>` trait (dyn_trait.rs lines
623-629) is implemented only for `(False, False)` and `(True, True)`. -/
def reborrow_bounds (send sync : Bool) : Bool :=
  (!send && !sync) || (send && sync)

/-- `reborrow`/`reborrow_mut` (dyn_trait.rs lines 636-660): permitted only
under `PrivStruct: ReborrowBounds<I::Send, I::Sync>` (modelled as `none` when
the bound fails); the result shares the object and the vtable, with
`PTR_FLAG_IS_BORROWED` set in the vtable pointer, and the same interface `I`. -/
def reborrow (h : DynTrait V) : Option (DynTrait V) :=
  if reborrow_bounds h.iface.send h.iface.sync then
    some
      { object := h.object
        vtable := h.vtable ||| PTR_FLAG_IS_BORROWED
        iface := h.iface }
  else none

/-- The observable effect of running a handle's destructor slot on its payload. -/
inductive DropAction (V : Type) where
  | runDropSlot (payload : V)
deriving DecidableEq

/-- `impl Drop for DynTrait` (dyn_trait.rs lines 721-735): if
`(vtable_ptr_flags & PTR_FLAG_IS_BORROWED) == PTR_FLAG_IS_BORROWED` do
nothing, else invoke `vtable.drop_ptr()` on the payload.  The returned list
records every action taken on the payload during the drop. -/
def dropActions (h : DynTrait V) : List (DropAction V) :=
  if h.vtable_ptr_flags &&& PTR_FLAG_IS_BORROWED == PTR_FLAG_IS_BORROWED then
    []
  else
    [DropAction.runDropSlot h.object]

/-- `impl PartialEq for DynTrait` (dyn_trait.rs lines 868-881); the vtable's
`partial_eq` slot is passed explicitly as a function on payloads. -/
def dynEq (heap : Nat → TypeInfo) (partial_eq_slot : V → V → Bool)
    (a b : DynTrait V) : Bool :=
  if !(a.is_same_type heap b) then false
  else partial_eq_slot a.object b.object

/-- `impl Ord for DynTrait` (dyn_trait.rs lines 883-897); the vtable's `cmp`
slot is passed explicitly as a function on payloads. -/
def dynCmp (heap : Nat → TypeInfo) (cmp_slot : V → V → Ordering)
    (a b : DynTrait V) : Ordering :=
  if !(a.is_same_type heap b) then compare a.vtable_address b.vtable_address
  else cmp_slot a.object b.object

/-- `impl PartialOrd for DynTrait` (dyn_trait.rs lines 899-915); the vtable's
`partial_cmp` slot is passed explicitly as a function on payloads. -/
def dynPartialCmp (heap : Nat → TypeInfo)
    (partial_cmp_slot : V → V → Option Ordering) (a b : DynTrait V) :
    Option Ordering :=
  if !(a.is_same_type heap b) then
    some (compare a.vtable_address b.vtable_address)
  else partial_cmp_slot a.object b.object

end DynTrait

/-! ## Extensible record (prefix type) field accessibility -/

/-- Modelled from the spec: `FieldAccessibility` (a bit array, defined in
`sabi_types`, not in the sources) — "a bitmap of which prefix fields are
conditionally present, and the producer's declared accessible-field count";
`prefix_ref.rs` lines 295-300 document `metadata().field_accessibility()`
with `is_accessible(i)` true exactly for the producer's fields. -/
structure FieldAccessibility where
  bits : Nat
deriving DecidableEq

/-- Modelled from the spec: the accessibility bitmap built from the
producer's declared field count — the lowest `n` bits set. -/
def FieldAccessibility.with_field_count (n : Nat) : FieldAccessibility :=
  { bits := 2 ^ n - 1 }

/-- Modelled from the spec: test bit `i` of the accessibility bitmap. -/
def FieldAccessibility.is_accessible (fa : FieldAccessibility) (i : Nat) : Bool :=
  fa.bits.testBit i

/-- Modelled from the spec: the producer's record together with "the metadata
co-located with the record at construction" (`WithMetadata_`, defined in
`prefix_type/mod.rs`, not in the sources).  The producer's compiled version
declares `accessible_count` fields; `fields` is the producer's static data
(the known-valid region), read through `PrefixRef::metadata`/`prefix`
(prefix_ref.rs lines 271-348). -/
structure WithMetadata (V : Type) where
  accessible_count : Nat
  fields : List V
deriving DecidableEq

/-- `PrefixRef::metadata(...).field_accessibility()` (prefix_ref.rs lines
271-307): the accessibility bitmap discovered from the metadata co-located
with the record. -/
def WithMetadata.field_accessibility (w : WithMetadata V) : FieldAccessibility :=
  FieldAccessibility.with_field_count w.accessible_count

/-- Modelled from the spec: `get_suffix_field(handle, i)` — "returns "absent"
if `i >= accessible_count` (the producer's compiled version predates that
field), else reads it" — the accessor generated for suffix fields checks the
accessibility bitmap and only then reads the field. -/
def get_suffix_field (w : WithMetadata V) (i : Nat) : Option V :=
  if w.field_accessibility.is_accessible i then w.fields[i]? else none

/-! ## Non-exhaustive enum storage compatibility (type_layout/tl_enums.rs) -/

/-- The parts of `TypeLayout` read by `TLNonExhaustive::check_compatible`
(`size()`, `alignment()`, `full_type()`, `mod_path()`); `TypeLayout` itself
is defined in `type_layout/mod.rs`, outside the sources, and is pure data. -/
structure TypeLayout where
  size : Nat
  alignment : Nat
  full_type : String
  mod_path : String
deriving DecidableEq

/-- `TLNonExhaustive` (tl_enums.rs lines 411-414): the recorded original
size and alignment (stored as a power-of-two exponent) of the enum. -/
structure TLNonExhaustive where
  original_size : Nat
  original_alignment_pow2 : Nat
deriving DecidableEq

/-- `original_alignment` (tl_enums.rs lines 430-433): `1 << pow2`. -/
def TLNonExhaustive.original_alignment (t : TLNonExhaustive) : Nat :=
  1 <<< t.original_alignment_pow2

/-- `IncompatibleWithNonExhaustive` (tl_enums.rs lines 468-475). -/
structure IncompatibleWithNonExhaustive where
  full_type : String
  module_path : String
  type_size : Nat
  type_alignment : Nat
  storage_size : Nat
  storage_alignment : Nat
deriving DecidableEq

/-- `TLNonExhaustive::check_compatible` (tl_enums.rs lines 437-454). -/
def TLNonExhaustive.check_compatible (t : TLNonExhaustive) (layout : TypeLayout) :
    Except IncompatibleWithNonExhaustive Unit :=
  let err := layout.size < t.original_size
    || layout.alignment < t.original_alignment
  if err then
    .error
      { full_type := layout.full_type
        module_path := layout.mod_path
        type_size := t.original_size
        type_alignment := t.original_alignment
        storage_size := layout.size
        storage_alignment := layout.alignment }
  else
    .ok ()

/-! ## Enum discriminant comparison (type_layout/tl_enums.rs) -/

/-- `DiscriminantRepr` (tl_enums.rs lines 344-371). -/
inductive DiscriminantRepr where
  | U8 | I8 | U16 | I16 | U32 | I32 | U64 | I64 | U128 | I128 | Usize | Isize
deriving DecidableEq

/-- `TLDiscriminant` (tl_enums.rs lines 326-335); the `isize`/`usize`/
`i64`/`u64` payloads are modelled as `Int`. -/
inductive TLDiscriminant where
  | Isize (v : Int)
  | Usize (v : Int)
  | Signed (v : Int)
  | Unsigned (v : Int)
deriving DecidableEq

/-- Modelled from the spec: the `ReprAttr` enum lives in `type_layout/mod.rs`
(not in the sources); only its `Int(DiscriminantRepr)` variant is produced by
`TLDiscriminants::compare`. -/
inductive ReprAttr where
  | Int (r : DiscriminantRepr)
deriving DecidableEq

/-- Modelled from the spec: the two `AbiInstability` finding categories that
`TLDiscriminants::compare` can produce (`abi_stability/abi_checking.rs` is not
in the sources); per the spec, "Each finding names its category and both
conflicting values", which is what `push_err(&mut errs, t, o, f, Category)`
appends: `Category { expected: f(t), found: f(o) }`. -/
inductive AbiInstability where
  | ReprAttr (expected found : AbiStable.ReprAttr)
  | EnumDiscriminant (expected found : TLDiscriminant)
deriving DecidableEq

/-- `TLDiscriminants` (tl_enums.rs lines 186-196, via
`declare_tl_discriminants!` lines 307-318): one variant per discriminant
representation, each holding the list of discriminant values. -/
inductive TLDiscriminants where
  | U8 (discriminants : List Int)
  | I8 (discriminants : List Int)
  | U16 (discriminants : List Int)
  | I16 (discriminants : List Int)
  | U32 (discriminants : List Int)
  | I32 (discriminants : List Int)
  | U64 (discriminants : List Int)
  | I64 (discriminants : List Int)
  | Usize (discriminants : List Int)
  | Isize (discriminants : List Int)
deriving DecidableEq

namespace TLDiscriminants

/-- `discriminant_repr` (tl_enums.rs lines 247-254). -/
def discriminant_repr : TLDiscriminants → DiscriminantRepr
  | .U8 _ => .U8
  | .I8 _ => .I8
  | .U16 _ => .U16
  | .I16 _ => .I16
  | .U32 _ => .U32
  | .I32 _ => .I32
  | .U64 _ => .U64
  | .I64 _ => .I64
  | .Usize _ => .Usize
  | .Isize _ => .Isize

/-- The discriminant-value list held by a `TLDiscriminants`. -/
def discriminant_values : TLDiscriminants → List Int
  | .U8 l | .I8 l | .U16 l | .I16 l | .U32 l | .I32 l | .U64 l | .I64 l
  | .Usize l | .Isize l => l

/-- The per-variant loop body of `TLDiscriminants::compare` (tl_enums.rs
lines 264-284): zip the two discriminant lists and push an `EnumDiscriminant`
finding for every pair that differs.  `single` is the macro's per-variant
`TLDiscriminant` constructor (`$single`). -/
def compare_discr_lists (single : Int → TLDiscriminant) (t o : List Int) :
    List AbiInstability :=
  (t.zip o).filterMap fun p =>
    if p.1 ≠ p.2 then some (.EnumDiscriminant (single p.1) (single p.2))
    else none

/-- `TLDiscriminants::compare` (tl_enums.rs lines 256-301).  Matching
variants compare their zipped value lists (with the macro's `$single`
constructor pairing: `U*` with `Signed`, `I*` with `Unsigned`); mismatched
variants produce a single `ReprAttr` finding.  `Ok` iff no finding. -/
def compare (a b : TLDiscriminants) : Except (List AbiInstability) Unit :=
  let errs : List AbiInstability :=
    match a, b with
    | .U8 t, .U8 o => compare_discr_lists (fun x => .Signed x) t o
    | .I8 t, .I8 o => compare_discr_lists (fun x => .Unsigned x) t o
    | .U16 t, .U16 o => compare_discr_lists (fun x => .Signed x) t o
    | .I16 t, .I16 o => compare_discr_lists (fun x => .Unsigned x) t o
    | .U32 t, .U32 o => compare_discr_lists (fun x => .Signed x) t o
    | .I32 t, .I32 o => compare_discr_lists (fun x => .Unsigned x) t o
    | .U64 t, .U64 o => compare_discr_lists (fun x => .Signed x) t o
    | .I64 t, .I64 o => compare_discr_lists (fun x => .Unsigned x) t o
    | .Usize t, .Usize o => compare_discr_lists (fun x => .Usize x) t o
    | .Isize t, .Isize o => compare_discr_lists (fun x => .Isize x) t o
    | _, _ =>
      [.ReprAttr (.Int a.discriminant_repr) (.Int b.discriminant_repr)]
  if errs.isEmpty then .ok () else .error errs

end TLDiscriminants

/-- The number of zipped positions at which the two discriminant lists
disagree (the indices `compare` visits are those below both lengths). -/
def differingIndexCount : List Int → List Int → Nat
  | x :: xs, y :: ys => (if x = y then 0 else 1) + differingIndexCount xs ys
  | _, _ => 0

/-! ## Non-exhaustive enum vtable (nonexhaustive_enum/vtable.rs) -/

/-- `NonExhaustiveVtableVal` (vtable.rs lines 48-82): a mandatory drop slot
plus one `Option` function-pointer slot per capability.  Function pointers
are modelled by an abstract slot type `Fn`. -/
structure NonExhaustiveVtableVal (Fn : Type) where
  _sabi_drop : Fn
  _sabi_clone : Option Fn
  _sabi_debug : Option Fn
  _sabi_display : Option Fn
  _sabi_serialize : Option Fn
  _sabi_partial_eq : Option Fn
  _sabi_cmp : Option Fn
  _sabi_partial_cmp : Option Fn
  _sabi_hash : Option Fn
deriving DecidableEq

/-- The capability accessors generated on `NonExhaustiveVtable` by
`declare_field_initalizer!` (vtable.rs lines 221-296). -/
inductive VtableCapability where
  | clone_ | debug | display | serialize | partial_eq | cmp | partial_cmp | hash
deriving DecidableEq

/-- The stored slot each capability accessor reads (vtable.rs lines 196,
231-296: accessor `$field` reads `self.$priv_field()`). -/
def capabilitySlot (vt : NonExhaustiveVtableVal Fn) :
    VtableCapability → Option Fn
  | .clone_ => vt._sabi_clone
  | .debug => vt._sabi_debug
  | .display => vt._sabi_display
  | .serialize => vt._sabi_serialize
  | .partial_eq => vt._sabi_partial_eq
  | .cmp => vt._sabi_cmp
  | .partial_cmp => vt._sabi_partial_cmp
  | .hash => vt._sabi_hash

/-- The field name each accessor's `panic_on_missing_fieldname` call reports
(via `Self::field_index_for_<fieldname>` and the prefix type layout). -/
def capabilityFieldName : VtableCapability → String
  | .clone_ => "_sabi_clone"
  | .debug => "_sabi_debug"
  | .display => "_sabi_display"
  | .serialize => "_sabi_serialize"
  | .partial_eq => "_sabi_partial_eq"
  | .cmp => "_sabi_cmp"
  | .partial_cmp => "_sabi_partial_cmp"
  | .hash => "_sabi_hash"

/-- The two ways a capability accessor can end: returning the stored function
pointer, or diverging by process abort.  Modelled from the spec for the abort
half: `panic_on_missing_fieldname` (defined in `prefix_type/mod.rs`, not in
the sources) "aborts the process with a descriptive message naming the
missing field"; there is no error-return constructor because the accessor's
return type is the bare function pointer. -/
inductive AccessorOutcome (Fn : Type) where
  | value (f : Fn)
  | abortMissingField (fieldname : String)
deriving DecidableEq

/-- The capability accessor body generated by `declare_field_initalizer!`
(vtable.rs lines 192-206): `match self.priv_field() { Some(v) => v, None =>
panic_on_missing_fieldname(field_index, layout) }`.  In the source the
accessor is only callable when the interface `I` declares the capability
(`I: InterfaceType<Cap = True>`). -/
def capabilityAccessor (vt : NonExhaustiveVtableVal Fn)
    (c : VtableCapability) : AccessorOutcome Fn :=
  match capabilitySlot vt c with
  | some v => .value v
  | none => .abortMissingField (capabilityFieldName c)

/-! ## Helper lemmas -/

/-- Extracting `PTR_FLAG_IS_BORROWED` from the flag nibble of a pointer is
the pointer's parity. -/
theorem land_fifteen_land_one (v : Nat) : (v &&& 15) &&& 1 = v % 2 := by
  rw [Nat.land_assoc]
  norm_num [Nat.and_one_is_mod]

/-- Setting the borrow bit makes the pointer odd. -/
theorem lor_one_mod_two (v : Nat) : (v ||| 1) % 2 = 1 := by
  have h : (v ||| 1).testBit 0 = true := by
    simp [Nat.testBit_or]
  rw [Nat.testBit_zero] at h
  exact of_decide_eq_true h

/-- A pointer whose low four bits are clear is untouched by `PTR_MASK`. -/
theorem maskPtr_of_dvd {v : Nat} (hv : 16 ∣ v) : maskPtr v = v := by
  unfold maskPtr
  exact Nat.mul_div_cancel' hv

/-- A list lookup is present exactly for indices below the length. -/
theorem isSome_getElem_iff {α : Type} (l : List α) (i : Nat) :
    (l[i]?).isSome ↔ i < l.length := by
  rw [Option.isSome_iff_ne_none]
  simp only [ne_eq, List.getElem?_eq_none_iff, not_le]

/-! ## Claim theorems -/

/-- **C1**: a `DynTrait` built by a constructor (whose stored vtable pointer
is the plain, even address of a static vtable) runs the destructor slot
exactly once on drop — touching the payload exactly once over the object's
lifetime, since each Rust value is dropped once — while any handle produced
by `reborrow`/`reborrow_mut` (the only operations that set
`PTR_FLAG_IS_BORROWED`) performs no action at all on drop: it neither
invokes the destructor slot nor touches the payload. -/
theorem c1_drop_destructor_iff_not_reborrowed {V : Type} (addr : Nat)
    (ifc : InterfaceFlags) (obj : V) (haligned : addr % 2 = 0) :
    (DynTrait.from_ptr addr ifc obj).dropActions
        = [DynTrait.DropAction.runDropSlot obj]
    ∧ ∀ h h' : DynTrait V, h.reborrow = some h' → h'.dropActions = [] := by
  constructor
  · unfold DynTrait.dropActions DynTrait.vtable_ptr_flags DynTrait.from_ptr
    rw [show PTR_FLAGS = 15 from rfl, show PTR_FLAG_IS_BORROWED = 1 from rfl]
    simp [land_fifteen_land_one, haligned]
  · intro h h' hr
    unfold DynTrait.reborrow at hr
    by_cases hb : DynTrait.reborrow_bounds h.iface.send h.iface.sync = true
    · rw [if_pos hb] at hr
      cases hr
      unfold DynTrait.dropActions DynTrait.vtable_ptr_flags
      rw [show PTR_FLAGS = 15 from rfl, show PTR_FLAG_IS_BORROWED = 1 from rfl]
      simp [land_fifteen_land_one, lor_one_mod_two]
    · rw [if_neg hb] at hr
      exact absurd hr (by simp)

/-- Witness for C1 at a concrete aligned vtable address. -/
theorem c1_witness :
    (16 : Nat) % 2 = 0
    ∧ ((DynTrait.from_ptr 16 ⟨false, false⟩ (5 : Nat)).dropActions
          = [DynTrait.DropAction.runDropSlot 5]
        ∧ ∀ h h' : DynTrait Nat, h.reborrow = some h' → h'.dropActions = []) :=
  ⟨by decide, c1_drop_destructor_iff_not_reborrowed 16 ⟨false, false⟩ 5 (by decide)⟩

/-- **C2**: unerasing a handle built by the non-borrowing constructors back
to the concrete type `T` it was built from (whose static vtable sits at the
16-aligned address `aT`) succeeds and yields the original value; unerasing it
to a distinct type `U` (distinct vtable address, incompatible identity token)
always returns the mismatch `UneraseError` and never returns a value. -/
theorem c2_unerase_roundtrip_and_mismatch {V : Type} (heap : Nat → TypeInfo)
    (aT aU : Nat) (ifc : InterfaceFlags) (v : V)
    (hal : 16 ∣ aT) (hne : aT ≠ aU)
    (hinc : (heap aT).is_compatible (heap aU) = false) :
    DynTrait.into_unerased heap (DynTrait.from_value aT ifc v) aT
        = .ok v
    ∧ DynTrait.into_unerased heap (DynTrait.from_value aT ifc v) aU
        = .error
            { expected_vtable_address := aU
              expected_type_info := heap aU
              found_vtable_address := aT
              found_type_info := heap aT } := by
  have haddr : (DynTrait.from_value aT ifc v : DynTrait V).vtable_address = aT :=
    maskPtr_of_dvd hal
  constructor
  · unfold DynTrait.into_unerased DynTrait.check_same_destructor_opaque
    rw [haddr]
    simp [DynTrait.from_value, DynTrait.from_ptr]
  · unfold DynTrait.into_unerased DynTrait.check_same_destructor_opaque
    rw [haddr]
    simp [hne, hinc]
    rfl

/-- Witness for C2: type at vtable address 16, payload 7, wrong type at
vtable address 32, identity tokens distinguished by module fingerprint. -/
theorem c2_witness :
    (16 : Nat) ∣ 16 ∧ (16 : Nat) ≠ 32
    ∧ (TypeInfo.is_compatible ⟨"", 16⟩ ⟨"", 32⟩ = false)
    ∧ (DynTrait.into_unerased (fun a => ⟨"", a⟩)
          (DynTrait.from_value 16 ⟨false, false⟩ (7 : Nat)) 16 = .ok 7
      ∧ DynTrait.into_unerased (fun a => ⟨"", a⟩)
          (DynTrait.from_value 16 ⟨false, false⟩ (7 : Nat)) 32
          = .error
              { expected_vtable_address := 32
                expected_type_info := ⟨"", 32⟩
                found_vtable_address := 16
                found_type_info := ⟨"", 16⟩ }) :=
  ⟨by decide, by decide, by decide,
    c2_unerase_roundtrip_and_mismatch (fun a => ⟨"", a⟩) 16 32 ⟨false, false⟩ 7
      (by decide) (by decide) (by decide)⟩

/-- **C3**: the downcast identity check `check_same_destructor_opaque`
succeeds exactly when the handle's stored (masked) dispatch-table address
equals the target type's table address, or the two identity tokens are
content-compatible; on mismatch it returns an `UneraseError` carrying the
expected table address and identity token and the found (stored, tag-bits
included) table pointer and identity token.  The embedding is a total
function: no input panics. -/
theorem c3_identity_check_iff_and_error_payload {V : Type}
    (heap : Nat → TypeInfo) (h : DynTrait V) (t_addr : Nat) :
    (DynTrait.check_same_destructor_opaque heap h t_addr = .ok ()
      ↔ (h.vtable_address = t_addr
          ∨ (heap h.vtable_address).is_compatible (heap t_addr) = true))
    ∧ ∀ e, DynTrait.check_same_destructor_opaque heap h t_addr = .error e →
        e = { expected_vtable_address := t_addr
              expected_type_info := heap t_addr
              found_vtable_address := h.vtable
              found_type_info := heap h.vtable_address } := by
  unfold DynTrait.check_same_destructor_opaque
  by_cases hc : (h.vtable_address == t_addr
      || (heap h.vtable_address).is_compatible (heap t_addr)) = true
  · rw [if_pos hc]
    simp only [Bool.or_eq_true, beq_iff_eq] at hc
    constructor
    · simp [hc]
    · intro e he
      exact absurd he (by simp)
  · rw [if_neg hc]
    simp only [Bool.or_eq_true, beq_iff_eq, not_or, Bool.not_eq_true] at hc
    constructor
    · constructor
      · intro he
        exact absurd he (by simp)
      · intro hd
        rcases hd with hd | hd
        · exact absurd hd hc.1
        · rw [hc.2] at hd
          exact absurd hd (by simp)
    · intro e he
      simp only [Except.error.injEq] at he
      exact he.symm

/-- Witness for C3 at a concrete mismatching handle: the error carries the
two addresses and the two identity tokens. -/
theorem c3_witness :
    ({ expected_vtable_address := 32
       expected_type_info := ⟨"", 32⟩
       found_vtable_address := 16
       found_type_info := ⟨"", 16⟩ } : UneraseError)
      = { expected_vtable_address := 32
          expected_type_info := (fun a => (⟨"", a⟩ : TypeInfo)) 32
          found_vtable_address := (⟨0, 16, ⟨false, false⟩⟩ : DynTrait Nat).vtable
          found_type_info := (fun a => (⟨"", a⟩ : TypeInfo))
            (⟨0, 16, ⟨false, false⟩⟩ : DynTrait Nat).vtable_address } :=
  (c3_identity_check_iff_and_error_payload (fun a => ⟨"", a⟩)
      (⟨0, 16, ⟨false, false⟩⟩ : DynTrait Nat) 32).2
    _ rfl

/-- **C4**: reborrowing is permitted exactly when the interface's `Send` and
`Sync` flags agree (both present or both absent), and a successful reborrow
carries exactly the same interface — hence the reborrow has the
"transferable" flag only if the source does, and the "shared-safe" flag only
if the source does. -/
theorem c4_reborrow_thread_flags {V : Type} (h : DynTrait V) :
    (h.reborrow.isSome ↔ h.iface.send = h.iface.sync)
    ∧ ∀ h', h.reborrow = some h' →
        h'.iface = h.iface
        ∧ (h'.iface.send = true → h.iface.send = true)
        ∧ (h'.iface.sync = true → h.iface.sync = true) := by
  unfold DynTrait.reborrow DynTrait.reborrow_bounds
  rcases h with ⟨obj, vt, ⟨s, y⟩⟩
  constructor
  · cases s <;> cases y <;> simp
  · intro h' hr
    cases s <;> cases y <;> simp at hr <;> simp [← hr]

/-- Witness for C4 on a `Send + Sync` interface. -/
theorem c4_witness :
    ((⟨5, 16, ⟨true, true⟩⟩ : DynTrait Nat).reborrow.isSome ↔ true = true)
    ∧ ((⟨5, 17, ⟨true, true⟩⟩ : DynTrait Nat).iface
          = (⟨5, 16, ⟨true, true⟩⟩ : DynTrait Nat).iface
        ∧ (true = true → true = true)
        ∧ (true = true → true = true)) :=
  ⟨(c4_reborrow_thread_flags (⟨5, 16, ⟨true, true⟩⟩ : DynTrait Nat)).1,
    (c4_reborrow_thread_flags (⟨5, 16, ⟨true, true⟩⟩ : DynTrait Nat)).2
      ⟨5, 17, ⟨true, true⟩⟩ (by decide)⟩

/-- **C5**: for a record whose co-located metadata declares `k` accessible
fields (with `k` at most the full field count of the producer's static
data), the suffix-field accessor returns a present value for every index
`i < k` and absent for every `i ≥ k`; any value it returns is read from the
known-valid region (`fields[i]` with `i < k ≤ fields.length`). -/
theorem c5_suffix_field_present_iff_below_count {V : Type}
    (w : WithMetadata V) (hk : w.accessible_count ≤ w.fields.length)
    (i : Nat) :
    ((get_suffix_field w i).isSome ↔ i < w.accessible_count)
    ∧ ∀ v, get_suffix_field w i = some v →
        i < w.accessible_count ∧ w.fields[i]? = some v := by
  have hbit : (w.field_accessibility.is_accessible i)
      = decide (i < w.accessible_count) := by
    unfold WithMetadata.field_accessibility FieldAccessibility.is_accessible
      FieldAccessibility.with_field_count
    exact Nat.testBit_two_pow_sub_one w.accessible_count i
  constructor
  · unfold get_suffix_field
    rw [hbit]
    by_cases hi : i < w.accessible_count
    · rw [if_pos (by simpa using hi)]
      have hlen : i < w.fields.length := lt_of_lt_of_le hi hk
      simp [isSome_getElem_iff, hlen, hi]
    · rw [if_neg (by simpa using hi)]
      simp [hi]
  · intro v hv
    unfold get_suffix_field at hv
    rw [hbit] at hv
    by_cases hi : i < w.accessible_count
    · rw [if_pos (by simpa using hi)] at hv
      exact ⟨hi, hv⟩
    · rw [if_neg (by simpa using hi)] at hv
      exact absurd hv (by simp)

/-- Witness for C5: a producer with three static fields declaring two of
them accessible. -/
theorem c5_witness :
    (2 : Nat) ≤ ([10, 20, 30] : List Nat).length
    ∧ (((get_suffix_field ⟨2, [10, 20, 30]⟩ 1).isSome ↔ 1 < 2)
        ∧ ∀ v, get_suffix_field (⟨2, [10, 20, 30]⟩ : WithMetadata Nat) 1 = some v →
            1 < 2 ∧ ([10, 20, 30] : List Nat)[1]? = some v) :=
  ⟨by decide,
    c5_suffix_field_present_iff_below_count
      (⟨2, [10, 20, 30]⟩ : WithMetadata Nat) (by decide) 1⟩

/-- **C6**: for a non-exhaustive enum carrying its recorded original size
and alignment, `check_compatible(storage_layout)` returns `Ok` if and only
if the storage's size is at least the recorded original size and its
alignment at least the recorded original alignment (nothing else — in
particular no variant information — is consulted); on failure the error
carries the type's size/alignment and the storage's size/alignment. -/
theorem c6_check_compatible_iff_fits (t : TLNonExhaustive)
    (layout : TypeLayout) :
    (t.check_compatible layout = .ok ()
      ↔ (t.original_size ≤ layout.size
          ∧ t.original_alignment ≤ layout.alignment))
    ∧ ∀ e, t.check_compatible layout = .error e →
        e = { full_type := layout.full_type
              module_path := layout.mod_path
              type_size := t.original_size
              type_alignment := t.original_alignment
              storage_size := layout.size
              storage_alignment := layout.alignment } := by
  unfold TLNonExhaustive.check_compatible
  by_cases hc : (layout.size < t.original_size
      || layout.alignment < t.original_alignment) = true
  · simp only [hc, if_true]
    simp only [Bool.or_eq_true, decide_eq_true_eq] at hc
    constructor
    · constructor
      · intro he
        exact absurd he (by simp)
      · intro hd
        rcases hc with hc | hc
        · exact absurd hc (not_lt_of_ge hd.1)
        · exact absurd hc (not_lt_of_ge hd.2)
    · intro e he
      simp only [Except.error.injEq] at he
      exact he.symm
  · simp only [Bool.or_eq_true, decide_eq_true_eq, not_or, not_lt] at hc
    simp only [Bool.or_eq_true, decide_eq_true_eq]
    rw [if_neg (by simpa [not_or, not_lt] using hc)]
    constructor
    · simp [hc.1, hc.2]
    · intro e he
      exact absurd he (by simp)

/-- Witness for C6: storage of size 4, alignment 2 is too small for an enum
recorded at size 8, alignment `2^3 = 8`. -/
theorem c6_witness :
    ({ full_type := "Foo", module_path := "crate::m", type_size := 8
       type_alignment := 8, storage_size := 4, storage_alignment := 2 }
        : IncompatibleWithNonExhaustive)
      = { full_type := (⟨4, 2, "Foo", "crate::m"⟩ : TypeLayout).full_type
          module_path := (⟨4, 2, "Foo", "crate::m"⟩ : TypeLayout).mod_path
          type_size := (⟨8, 3⟩ : TLNonExhaustive).original_size
          type_alignment := (⟨8, 3⟩ : TLNonExhaustive).original_alignment
          storage_size := (⟨4, 2, "Foo", "crate::m"⟩ : TypeLayout).size
          storage_alignment := (⟨4, 2, "Foo", "crate::m"⟩ : TypeLayout).alignment } :=
  (c6_check_compatible_iff_fits ⟨8, 3⟩ ⟨4, 2, "Foo", "crate::m"⟩).2 _ rfl

/-- One step of the per-variant comparison loop. -/
theorem compare_discr_lists_cons (single : Int → TLDiscriminant)
    (x y : Int) (xs ys : List Int) :
    TLDiscriminants.compare_discr_lists single (x :: xs) (y :: ys)
      = (if x = y then []
          else [AbiInstability.EnumDiscriminant (single x) (single y)])
        ++ TLDiscriminants.compare_discr_lists single xs ys := by
  unfold TLDiscriminants.compare_discr_lists
  by_cases hxy : x = y <;> simp [List.filterMap_cons, hxy]

/-- The per-variant comparison loop emits one finding per differing zipped
position. -/
theorem compare_discr_lists_length (single : Int → TLDiscriminant) :
    ∀ t o : List Int,
      (TLDiscriminants.compare_discr_lists single t o).length
        = differingIndexCount t o
  | [], _ => by
    simp [TLDiscriminants.compare_discr_lists, differingIndexCount]
  | _ :: _, [] => by
    simp [TLDiscriminants.compare_discr_lists, differingIndexCount]
  | x :: xs, y :: ys => by
    rw [compare_discr_lists_cons]
    have ih := compare_discr_lists_length single xs ys
    unfold differingIndexCount
    by_cases hxy : x = y
    · simp [hxy, ih]
    · simp [hxy, ih]
      omega

/-- Every finding the per-variant comparison loop emits is an
`EnumDiscriminant` finding. -/
theorem compare_discr_lists_mem (single : Int → TLDiscriminant)
    (t o : List Int) :
    ∀ e ∈ TLDiscriminants.compare_discr_lists single t o,
      ∃ x y, e = AbiInstability.EnumDiscriminant x y := by
  intro e he
  unfold TLDiscriminants.compare_discr_lists at he
  rcases List.mem_filterMap.1 he with ⟨p, -, hp⟩
  by_cases hxy : p.1 = p.2
  · rw [if_neg (by simp [hxy])] at hp
    exact absurd hp (by simp)
  · rw [if_pos hxy] at hp
    exact ⟨single p.1, single p.2, (Option.some.injEq _ _ ▸ hp).symm⟩

/-- Zipping a list with an extension of itself pairs equal elements, so the
comparison loop emits no finding. -/
theorem compare_discr_lists_self_append (single : Int → TLDiscriminant) :
    ∀ (t rest : List Int),
      TLDiscriminants.compare_discr_lists single t (t ++ rest) = []
        ∧ TLDiscriminants.compare_discr_lists single (t ++ rest) t = []
  | [], rest => by
    simp [TLDiscriminants.compare_discr_lists]
  | x :: xs, rest => by
    have ih := compare_discr_lists_self_append single xs rest
    rw [List.cons_append]
    rw [compare_discr_lists_cons, compare_discr_lists_cons]
    simp [ih.1, ih.2]

/-- Behaviour of the final `if errs.is_empty()` step of `compare` for a
same-representation pair of discriminant tables. -/
theorem compare_same_repr_aux (single : Int → TLDiscriminant)
    (t o : List Int) :
    ((if (TLDiscriminants.compare_discr_lists single t o).isEmpty
        then (Except.ok () : Except (List AbiInstability) Unit)
        else .error (TLDiscriminants.compare_discr_lists single t o)) = .ok ()
      ↔ differingIndexCount t o = 0)
    ∧ ∀ errs,
        (if (TLDiscriminants.compare_discr_lists single t o).isEmpty
          then (Except.ok () : Except (List AbiInstability) Unit)
          else .error (TLDiscriminants.compare_discr_lists single t o))
            = .error errs →
        errs.length = differingIndexCount t o
          ∧ ∀ e ∈ errs, ∃ x y, e = AbiInstability.EnumDiscriminant x y := by
  by_cases hE : (TLDiscriminants.compare_discr_lists single t o).isEmpty = true
  · rw [if_pos hE]
    have h0 : differingIndexCount t o = 0 := by
      have hlen := compare_discr_lists_length single t o
      rw [List.isEmpty_iff.mp hE] at hlen
      simpa using hlen.symm
    exact ⟨by simp [h0], fun errs he => absurd he (by simp)⟩
  · rw [if_neg hE]
    constructor
    · constructor
      · intro h
        exact absurd h (by simp)
      · intro h0
        have hlen := compare_discr_lists_length single t o
        rw [h0] at hlen
        rw [List.isEmpty_iff] at hE
        exact absurd (List.length_eq_zero.mp hlen) hE
    · intro errs he
      simp only [Except.error.injEq] at he
      exact ⟨he ▸ compare_discr_lists_length single t o,
        he ▸ compare_discr_lists_mem single t o⟩

/-- The final `if errs.is_empty()` step of `compare` returns `Ok` when one
discriminant list extends the other. -/
theorem compare_ok_of_append (single : Int → TLDiscriminant)
    (t o rest : List Int) (hpre : o = t ++ rest ∨ t = o ++ rest) :
    (if (TLDiscriminants.compare_discr_lists single t o).isEmpty
      then (Except.ok () : Except (List AbiInstability) Unit)
      else .error (TLDiscriminants.compare_discr_lists single t o)) = .ok () := by
  rcases hpre with h | h
  · subst h
    rw [(compare_discr_lists_self_append single t rest).1]
    rfl
  · subst h
    rw [(compare_discr_lists_self_append single o rest).2]
    rfl

/-- **C7**: `TLDiscriminants::compare` does not short-circuit.  For two
tables of the same representation it returns `Ok` exactly when no compared
(zipped) position differs, and on `Err` the finding list has exactly one
entry per differing position — all of them `EnumDiscriminant` findings.
For two tables of different representations it returns a single `ReprAttr`
finding naming both representations. -/
theorem c7_discriminant_compare_complete (a b : TLDiscriminants) :
    (a.discriminant_repr = b.discriminant_repr →
      (TLDiscriminants.compare a b = .ok ()
        ↔ differingIndexCount a.discriminant_values b.discriminant_values = 0)
      ∧ ∀ errs, TLDiscriminants.compare a b = .error errs →
          errs.length
              = differingIndexCount a.discriminant_values b.discriminant_values
            ∧ ∀ e ∈ errs, ∃ x y, e = AbiInstability.EnumDiscriminant x y)
    ∧ (a.discriminant_repr ≠ b.discriminant_repr →
        TLDiscriminants.compare a b
          = .error [AbiInstability.ReprAttr (.Int a.discriminant_repr)
              (.Int b.discriminant_repr)]) := by
  cases a <;> cases b
  all_goals refine ⟨fun hrepr => ?_, fun hne => ?_⟩
  all_goals first
    | exact absurd rfl hne
    | rfl
    | exact compare_same_repr_aux (fun x => TLDiscriminant.Signed x) _ _
    | exact compare_same_repr_aux (fun x => TLDiscriminant.Unsigned x) _ _
    | exact compare_same_repr_aux (fun x => TLDiscriminant.Usize x) _ _
    | exact compare_same_repr_aux (fun x => TLDiscriminant.Isize x) _ _
    | simp [TLDiscriminants.discriminant_repr] at hrepr

/-- Witness for C7: two `#[repr(u8)]` tables differing at the second
position produce exactly one `EnumDiscriminant` finding. -/
theorem c7_witness :
    ([AbiInstability.EnumDiscriminant (.Signed 1) (.Signed 2)] :
        List AbiInstability).length = differingIndexCount [0, 1] [0, 2]
    ∧ ∀ e ∈ ([AbiInstability.EnumDiscriminant (.Signed 1) (.Signed 2)] :
        List AbiInstability), ∃ x y, e = AbiInstability.EnumDiscriminant x y :=
  ((c7_discriminant_compare_complete (.U8 [0, 1]) (.U8 [0, 2])).1 rfl).2
    [AbiInstability.EnumDiscriminant (.Signed 1) (.Signed 2)] rfl

/-- **C8**: when one discriminant list of a same-representation pair is a
prefix of the other (a module knowing fewer variants of an
exhaustiveness-open enum), `compare` reports no finding at all: the extra
trailing discriminants produce nothing. -/
theorem c8_prefix_discriminant_lists_ok (a b : TLDiscriminants)
    (rest : List Int)
    (hrepr : a.discriminant_repr = b.discriminant_repr)
    (hpre : b.discriminant_values = a.discriminant_values ++ rest
        ∨ a.discriminant_values = b.discriminant_values ++ rest) :
    TLDiscriminants.compare a b = .ok () := by
  cases a <;> cases b
  all_goals first
    | exact compare_ok_of_append (fun x => TLDiscriminant.Signed x) _ _ rest
        (by simpa [TLDiscriminants.discriminant_values] using hpre)
    | exact compare_ok_of_append (fun x => TLDiscriminant.Unsigned x) _ _ rest
        (by simpa [TLDiscriminants.discriminant_values] using hpre)
    | exact compare_ok_of_append (fun x => TLDiscriminant.Usize x) _ _ rest
        (by simpa [TLDiscriminants.discriminant_values] using hpre)
    | exact compare_ok_of_append (fun x => TLDiscriminant.Isize x) _ _ rest
        (by simpa [TLDiscriminants.discriminant_values] using hpre)
    | simp [TLDiscriminants.discriminant_repr] at hrepr

/-- Witness for C8: `{0, 1}` against `{0, 1, 2}` (the spec's
`Circle | Square` versus `Circle | Square | Triangle` scenario). -/
theorem c8_witness :
    TLDiscriminants.compare (.U8 [0, 1]) (.U8 [0, 1, 2]) = .ok () :=
  c8_prefix_discriminant_lists_ok (.U8 [0, 1]) (.U8 [0, 1, 2]) [2]
    rfl (Or.inl rfl)

/-- **C9**: every capability accessor on the non-exhaustive enum vtable
(callable only when the interface declares the capability present) either
returns the stored function-pointer slot, or — when the slot is empty
because it was built by an older interface definition — diverges by process
abort with a message naming the missing field.  The accessor's outcome type
has no error constructor: it can never return a typed error value. -/
theorem c9_missing_slot_aborts {Fn : Type} (vt : NonExhaustiveVtableVal Fn)
    (c : VtableCapability) :
    (capabilitySlot vt c = none
        ∧ capabilityAccessor vt c
            = .abortMissingField (capabilityFieldName c))
    ∨ ∃ f, capabilitySlot vt c = some f
        ∧ capabilityAccessor vt c = .value f := by
  unfold capabilityAccessor
  rcases hslot : capabilitySlot vt c with _ | f
  · exact Or.inl ⟨rfl, rfl⟩
  · exact Or.inr ⟨f, rfl, rfl⟩

/-- **C10**: when the type-identity check `is_same_type` between two
`DynTrait`s fails, equality returns `false` and the orderings return the
comparison of the two dispatch-table addresses, uniformly in the vtable's
`partial_eq`/`cmp`/`partial_cmp` slots (so those slots are never invoked);
the slots determine the result only when the identity check succeeds. -/
theorem c10_comparisons_without_slots {V : Type} (heap : Nat → TypeInfo)
    (a b : DynTrait V) :
    (a.is_same_type heap b = false →
      (∀ peq, DynTrait.dynEq heap peq a b = false)
      ∧ (∀ c, DynTrait.dynCmp heap c a b
          = compare a.vtable_address b.vtable_address)
      ∧ (∀ pc, DynTrait.dynPartialCmp heap pc a b
          = some (compare a.vtable_address b.vtable_address)))
    ∧ (a.is_same_type heap b = true →
      (∀ peq, DynTrait.dynEq heap peq a b = peq a.object b.object)
      ∧ (∀ c, DynTrait.dynCmp heap c a b = c a.object b.object)
      ∧ (∀ pc, DynTrait.dynPartialCmp heap pc a b = pc a.object b.object)) := by
  unfold DynTrait.dynEq DynTrait.dynCmp DynTrait.dynPartialCmp
  constructor
  · intro hns
    rw [hns]
    exact ⟨fun _ => rfl, fun _ => rfl, fun _ => rfl⟩
  · intro hs
    rw [hs]
    exact ⟨fun _ => rfl, fun _ => rfl, fun _ => rfl⟩

/-- Witness for C10 on two handles with distinct vtable addresses and
incompatible identity tokens: even an always-true `partial_eq` slot yields
`false`. -/
theorem c10_witness :
    DynTrait.dynEq (fun a => ⟨"", a⟩) (fun _ _ => true)
        (⟨0, 16, ⟨false, false⟩⟩ : DynTrait Nat) ⟨0, 32, ⟨false, false⟩⟩
      = false :=
  ((c10_comparisons_without_slots (fun a => ⟨"", a⟩)
      (⟨0, 16, ⟨false, false⟩⟩ : DynTrait Nat)
      ⟨0, 32, ⟨false, false⟩⟩).1 (by decide)).1 (fun _ _ => true)

end AbiStable
